import Mathlib

/-! Verification development for the NIST SP800-90B entropy-assessment
repository. The engine itself (service and entropy packages) is expressed
here as a shallow embedding; the environment-variable configuration loader
is translated directly from internal/config/config.go. -/

namespace EA

/-- Structural (fuel-based) floor of the base-2 logarithm; log2floorAux is
kernel-reducible so concrete assessments can be evaluated by decide. -/
def log2floorAux : Nat → Nat → Nat
  | 0, _ => 0
  | fuel + 1, n => if 2 ≤ n then log2floorAux fuel (n / 2) + 1 else 0

/-- Floor of log2 of a natural number (0 for inputs 0 and 1). -/
def log2floor (n : Nat) : Nat := log2floorAux n n

/-- Ceiling of log2 of a natural number (0 for inputs 0 and 1). -/
def ceilLog2 (n : Nat) : Nat := if n ≤ 1 then 0 else log2floor (n - 1) + 1

/-- Kernel-reducible minimum on the rationals. -/
def qmin (a b : ℚ) : ℚ := if a ≤ b then a else b

/-- Kernel-reducible maximum on the rationals. -/
def qmax (a b : ℚ) : ℚ := if a ≤ b then b else a

/-- Modelled from the spec: the orchestrator applies conservative bounding
rules from the standard, so every per-test estimate is clamped into the
interval from 0 to bits-per-symbol. -/
def clampE (b : Nat) (x : ℚ) : ℚ := qmin (b : ℚ) (qmax 0 x)

/-- Largest multiplicity of any element of the list. -/
def maxMult {α : Type} [DecidableEq α] (l : List α) : Nat :=
  (l.map (fun x => l.count x)).foldr max 0

/-- Adjacent (first-order transition) pairs of the sequence. -/
def adjPairs (s : List Nat) : List (Nat × Nat) := s.zip s.tail

/-- Number of distinct symbols occurring in the list. -/
def distinctCount (l : List Nat) : Nat :=
  (l.foldl (fun acc x => if x ∈ acc then acc else x :: acc) []).length

/-- Most frequent element of the list; on an exact tie the element seen
first wins, giving the deterministic tie-break the spec requires. -/
def mostCommon (l : List Nat) : Option Nat :=
  match l with
  | [] => none
  | x :: _ => some (l.foldl (fun best a => if l.count a > l.count best then a else best) x)

/-- Modelled from the spec: greedy scan recording the length of each
segment that ends at the first repeat of a value (collision), restarting
after every collision; the missing engine computes the same segment
lengths for the collision estimate. -/
def collisionLensAux : List Nat → List Nat → Nat → List Nat
  | [], _, _ => []
  | x :: xs, seen, len =>
    if x ∈ seen then (len + 1) :: collisionLensAux xs [] 0
    else collisionLensAux xs (x :: seen) (len + 1)

/-- Lengths of the collision segments of the sequence. -/
def collisionLens (s : List Nat) : List Nat := collisionLensAux s [] 0

/-- Integer mean of a list of naturals (0 on the empty list). -/
def natMean (l : List Nat) : Nat := l.sum / l.length

/-- Last w elements of a list. -/
def lastN (w : Nat) (l : List Nat) : List Nat := l.drop (l.length - w)

/-- Symbols that directly follow an occurrence of y in the list. -/
def successorsOf (y : Nat) (l : List Nat) : List Nat :=
  (adjPairs l).filterMap (fun p => if p.1 = y then some p.2 else none)

/-- Symbols that directly follow an occurrence of the two-symbol context
(a, b) in the list. -/
def pairSuccessors (a b : Nat) (l : List Nat) : List Nat :=
  (l.zip (l.tail.zip l.tail.tail)).filterMap
    (fun t => if t.1 = a ∧ t.2.1 = b then some t.2.2 else none)

/-- Lag predictor: guesses that the next symbol repeats the previous one. -/
def lagPredict (hist : List Nat) : Option Nat := hist.getLast?

/-- Most-common-in-window predictor over the last 63 symbols. -/
def mcwPredict (hist : List Nat) : Option Nat := mostCommon (lastN 63 hist)

/-- First-order Markov-model predictor: most common successor of the last
symbol seen so far. -/
def mmcPredict (hist : List Nat) : Option Nat :=
  match hist.getLast? with
  | none => none
  | some y => mostCommon (successorsOf y hist)

/-- Modelled from the spec: order-2 context predictor standing in for the
LZ78Y dictionary predictor of the missing engine. -/
def lz78yPredict (hist : List Nat) : Option Nat :=
  match hist.reverse with
  | b :: a :: _ => mostCommon (pairSuccessors a b hist)
  | _ => none

/-- Runs an online predictor over the sequence, returning the number of
correct guesses and the number of predictions attempted. -/
def predRun (p : List Nat → Option Nat) : List Nat → List Nat → Nat × Nat
  | _, [] => (0, 0)
  | hist, x :: xs =>
    let r := predRun p (hist ++ [x]) xs
    (r.1 + (if p hist = some x then 1 else 0), r.2 + 1)

/-- Prediction counts for a sequence, seeding the history with its first
symbol as the online predictors of the spec do. -/
def predCounts (p : List Nat → Option Nat) : List Nat → Nat × Nat
  | [] => (0, 0)
  | x :: xs => predRun p [x] xs

/-- All contiguous windows of length t of the sequence. -/
def windows (t : Nat) (s : List Nat) : List (List Nat) :=
  (List.range (s.length + 1 - t)).map (fun i => (s.drop i).take t)

/-- Whether some window of length t occurs at least twice. -/
def hasRepeatW (t : Nat) (s : List Nat) : Bool :=
  (windows t s).any (fun w => 2 ≤ (windows t s).count w)

/-- Length of the longest repeated contiguous substring (0 when every
symbol is distinct). -/
def lrsLen (s : List Nat) : Nat :=
  ((List.range (s.length + 1)).filter (fun t => decide (0 < t) && hasRepeatW t s)).foldr max 0

/-- Modelled from the spec: integer-granularity conservative stand-in for
the most-common-value estimate, whose exact Clopper-Pearson form lives in
the missing engine sources. -/
def mcvRaw (s : List Nat) : ℚ :=
  (log2floor s.length : ℚ) - (ceilLog2 (max (maxMult s) 1) : ℚ)

/-- Modelled from the spec: stand-in for the collision estimate derived
from the mean collision-segment length. -/
def collisionRaw (s : List Nat) : ℚ := 2 * (log2floor (natMean (collisionLens s)) : ℚ)

/-- Modelled from the spec: stand-in for the first-order Markov estimate
driven by the most probable transition. -/
def markovRaw (s : List Nat) : ℚ :=
  (log2floor (s.length - 1) : ℚ) - (ceilLog2 (max (maxMult (adjPairs s)) 1) : ℚ)

/-- Modelled from the spec: stand-in for the Maurer-style compression
estimate. -/
def compressionRaw (s : List Nat) : ℚ := (log2floor (distinctCount s) : ℚ)

/-- Modelled from the spec: stand-in for the t-tuple estimate (per-symbol
entropy of the most frequent adjacent tuple). -/
def tTupleRaw (s : List Nat) : ℚ := markovRaw s / 2

/-- Modelled from the spec: stand-in for the longest-repeated-substring
estimate. -/
def lrsRaw (s : List Nat) : ℚ :=
  (log2floor (s.length + 1 - lrsLen s) : ℚ) / ((lrsLen s : ℚ))

/-- Modelled from the spec: entropy estimate of a prediction estimator
from its empirical correct-guess rate, integer-granularity conservative
form. -/
def predRaw (p : List Nat → Option Nat) (s : List Nat) : ℚ :=
  (log2floor (predCounts p s).2 : ℚ) - (ceilLog2 (max (predCounts p s).1 1) : ℚ)

/-- Contribution of one sub-test: its name and its entropy estimate, where
none records that the sub-test is not applicable on this input. -/
structure TestResult where
  name : String
  estimate : Option ℚ
  deriving Repr, DecidableEq

/-- Builds a TestResult from an applicability condition and an estimate. -/
def mkResult (nm : String) (app : Prop) [Decidable app] (v : ℚ) : TestResult :=
  { name := nm, estimate := if app then some v else none }

/-- Most Common Value sub-test; applicable on any non-empty sample. -/
def mcvResult (s : List Nat) (b : Nat) : TestResult :=
  mkResult "Most Common Value" (1 ≤ s.length) (clampE b (mcvRaw s))

/-- Collision sub-test; needs at least one collision in the sample. -/
def collisionResult (s : List Nat) (b : Nat) : TestResult :=
  mkResult "Collision" (collisionLens s ≠ []) (clampE b (collisionRaw s))

/-- Markov sub-test; needs at least one transition. -/
def markovResult (s : List Nat) (b : Nat) : TestResult :=
  mkResult "Markov" (2 ≤ s.length) (clampE b (markovRaw s))

/-- Compression sub-test; needs the minimum window of the standard. -/
def compressionResult (s : List Nat) (b : Nat) : TestResult :=
  mkResult "Compression" (1000 ≤ s.length) (clampE b (compressionRaw s))

/-- t-Tuple sub-test. -/
def tTupleResult (s : List Nat) (b : Nat) : TestResult :=
  mkResult "t-Tuple" (3 ≤ s.length) (clampE b (tTupleRaw s))

/-- Longest Repeated Substring sub-test; needs a repeated substring. -/
def lrsResult (s : List Nat) (b : Nat) : TestResult :=
  mkResult "Longest Repeated Substring" (1 ≤ lrsLen s) (clampE b (lrsRaw s))

/-- MultiMCW prediction sub-test; needs the 63-symbol window plus one. -/
def multiMCWResult (s : List Nat) (b : Nat) : TestResult :=
  mkResult "MultiMCW Prediction" (64 ≤ s.length) (clampE b (predRaw mcwPredict s))

/-- Lag prediction sub-test. -/
def lagResult (s : List Nat) (b : Nat) : TestResult :=
  mkResult "Lag Prediction" (2 ≤ s.length) (clampE b (predRaw lagPredict s))

/-- MultiMMC prediction sub-test. -/
def multiMMCResult (s : List Nat) (b : Nat) : TestResult :=
  mkResult "MultiMMC Prediction" (3 ≤ s.length) (clampE b (predRaw mmcPredict s))

/-- LZ78Y prediction sub-test. -/
def lz78yResult (s : List Nat) (b : Nat) : TestResult :=
  mkResult "LZ78Y Prediction" (3 ≤ s.length) (clampE b (predRaw lz78yPredict s))

/-- Modelled from the spec: the IID path computes the permutation-based
most-common-value estimate together with the other applicable IID-path
estimates; the permutation p-values of the missing engine do not feed the
entropy minimum and are not modelled. -/
def iidBattery (s : List Nat) (b : Nat) : List TestResult :=
  [mcvResult s b, compressionResult s b]

/-- Modelled from the spec: the Non-IID battery of 10 predictors in the
fixed evaluation order of the standard. -/
def nonIIDBattery (s : List Nat) (b : Nat) : List TestResult :=
  [mcvResult s b, collisionResult s b, markovResult s b, compressionResult s b,
   tTupleResult s b, lrsResult s b, multiMCWResult s b, lagResult s b,
   multiMMCResult s b, lz78yResult s b]

/-- Error taxonomy of the engine boundary. -/
inductive EAError where
  | invalidInput (msg : String)
  | assessmentFailed (msg : String)
  deriving Repr, DecidableEq

/-- Which test suite an assessment ran. -/
inductive TestType where
  | iid
  | nonIID
  deriving Repr, DecidableEq

/-- Printable name of a test type, as used in error messages. -/
def TestType.name : TestType → String
  | .iid => "IID"
  | .nonIID => "Non-IID"

/-- Final output record of one assessment call. -/
structure AssessmentResult where
  testType : TestType
  minEntropy : ℚ
  hOriginal : ℚ
  hBitstring : ℚ
  breakdown : List TestResult
  dataSize : Nat
  bitsPerSymbol : Int
  warnings : List String
  deriving Repr, DecidableEq

/-- Modelled from the spec: input validation of the missing engine, run
before any statistical work; empty data and the bits-per-symbol range are
checked first (matching the service tests), then the minimum sample count. -/
def validateInput (data : List Nat) (bits : Int) : Option EAError :=
  if data.isEmpty then some (.invalidInput "data cannot be empty")
  else if bits < 1 ∨ 8 < bits then
    some (.invalidInput "bits_per_symbol must be between 1 and 8")
  else if data.length < 2 then
    some (.invalidInput "data must contain at least 2 samples")
  else none

/-- Minimum over the estimates of the applicable sub-tests; none when no
sub-test was applicable. -/
def minEstimate (rs : List TestResult) : Option ℚ :=
  match rs.filterMap (fun t => t.estimate) with
  | [] => none
  | x :: xs => some (xs.foldl qmin x)

/-- Modelled from the spec: the orchestrator; validates the input, runs
the selected battery (which may report an internal statistical failure),
takes the minimum over the applicable estimates and assembles the result
record; verbosity only adds diagnostic warnings. -/
def assessWith (tt : TestType) (battery : List Nat → Nat → Except String (List TestResult))
    (verbose : Nat) (data : List Nat) (bits : Int) : Except EAError AssessmentResult :=
  match validateInput data bits with
  | some e => .error e
  | none =>
    match battery data bits.toNat with
    | .error msg => .error (.assessmentFailed (tt.name ++ " assessment failed: " ++ msg))
    | .ok results =>
      match minEstimate results with
      | none => .error (.assessmentFailed (tt.name ++ " assessment failed: no applicable estimators"))
      | some m =>
        .ok { testType := tt
              minEntropy := m
              hOriginal := m
              hBitstring := m / (bits : ℚ)
              breakdown := results
              dataSize := data.length
              bitsPerSymbol := bits
              warnings :=
                if verbose = 0 then []
                else results.filterMap
                  (fun t => if t.estimate.isNone then some (t.name ++ ": not applicable") else none) }

/-- Wraps a total battery as an Except-valued one. -/
def pureBattery (f : List Nat → Nat → List TestResult) :
    List Nat → Nat → Except String (List TestResult) :=
  fun s b => .ok (f s b)

/-- Modelled from the spec: the public IID assessment entry point. -/
def AssessIID (verbose : Nat) (data : List Nat) (bits : Int) : Except EAError AssessmentResult :=
  assessWith .iid (pureBattery iidBattery) verbose data bits

/-- Modelled from the spec: the public Non-IID assessment entry point. -/
def AssessNonIID (verbose : Nat) (data : List Nat) (bits : Int) : Except EAError AssessmentResult :=
  assessWith .nonIID (pureBattery nonIIDBattery) verbose data bits

/-- Min-entropy of a successful call, none on failure. -/
def resultMinEntropy : Except EAError AssessmentResult → Option ℚ
  | .ok r => some r.minEntropy
  | .error _ => none

/-- Min-entropy of a successful call, defaulting to 0 on failure. -/
def minEntropyOut (e : Except EAError AssessmentResult) : ℚ :=
  (resultMinEntropy e).getD 0

/-- Minimum over the applicable estimates of the breakdown of a successful
call, none on failure. -/
def breakdownMin : Except EAError AssessmentResult → Option ℚ
  | .ok r => minEstimate r.breakdown
  | .error _ => none

/-- Whether a call succeeded. -/
def isOk : Except EAError AssessmentResult → Bool
  | .ok _ => true
  | .error _ => false

/-- Whether a call failed with an input-validation error. -/
def isInvalidInput : Except EAError AssessmentResult → Bool
  | .error (.invalidInput _) => true
  | _ => false

/-- Whether the breakdown of a successful call records some sub-test as not
applicable. -/
def hasNotApplicable : Except EAError AssessmentResult → Bool
  | .ok r => r.breakdown.any (fun t => t.estimate.isNone)
  | .error _ => false

/-- Modelled from the spec: per-service state; the verbosity level is the
only mutable field, set by SetVerbose as in the service tests. -/
structure Service where
  verbose : Nat
  deriving Repr, DecidableEq

/-- One call on the service boundary. -/
inductive Call where
  | setVerbose (v : Nat)
  | assessIID (data : List Nat) (bits : Int)
  | assessNonIID (data : List Nat) (bits : Int)

/-- Modelled from the spec: small-step semantics of the service; assessment
calls read the verbosity, construct and discard their own working
structures and leave the service state unchanged. -/
def step (s : Service) : Call → Service × Option (Except EAError AssessmentResult)
  | .setVerbose v => ({ verbose := v }, none)
  | .assessIID d b => (s, some (AssessIID s.verbose d b))
  | .assessNonIID d b => (s, some (AssessNonIID s.verbose d b))

end EA

namespace Cfg

/-- Digits of a decimal string folded into a natural number. -/
def digitsToNat (l : List Char) : Nat :=
  l.foldl (fun acc c => acc * 10 + (c.toNat - 48)) 0

/-- Model of Go strconv.Atoi and strconv.ParseInt with base 10 on a 64-bit
platform: optional sign, one or more decimal digits, 64-bit range check;
none models a non-nil error. -/
def goParseInt (s : String) : Option Int :=
  let cs := s.toList
  let r := match cs with
    | '-' :: t => (true, t)
    | '+' :: t => (false, t)
    | t => (false, t)
  if r.2 = [] then none
  else if ¬(r.2.all (fun c => c.isDigit)) then none
  else
    let v : Int := (digitsToNat r.2 : Int)
    let v := if r.1 then -v else v
    if v < -(2 ^ 63) ∨ 2 ^ 63 - 1 < v then none else some v

/-- Model of Go strconv.ParseBool: the exact literal set it accepts. -/
def goParseBool (s : String) : Option Bool :=
  if s = "1" ∨ s = "t" ∨ s = "T" ∨ s = "TRUE" ∨ s = "true" ∨ s = "True" then some true
  else if s = "0" ∨ s = "f" ∨ s = "F" ∨ s = "FALSE" ∨ s = "false" ∨ s = "False" then some false
  else none

/-- Nanoseconds per duration unit accepted by Go time.ParseDuration. -/
def durUnitNs (u : List Char) : Option Nat :=
  if u = ['n', 's'] then some 1
  else if u = ['u', 's'] then some 1000
  else if u = ['µ', 's'] then some 1000
  else if u = ['μ', 's'] then some 1000
  else if u = ['m', 's'] then some 1000000
  else if u = ['s'] then some 1000000000
  else if u = ['m'] then some 60000000000
  else if u = ['h'] then some 3600000000000
  else none

/-- Longest leading run of decimal digits and the remainder. -/
def takeDigits : List Char → List Char × List Char
  | [] => ([], [])
  | c :: cs =>
    if c.isDigit then
      let r := takeDigits cs
      (c :: r.1, r.2)
    else ([], c :: cs)

/-- Longest leading run of unit characters (anything that is neither a
digit nor a decimal point) and the remainder. -/
def takeUnit : List Char → List Char × List Char
  | [] => ([], [])
  | c :: cs =>
    if c.isDigit ∨ c = '.' then ([], c :: cs)
    else
      let r := takeUnit cs
      (c :: r.1, r.2)

/-- Parses the number-unit segments of a Go duration literal into
nanoseconds; fuel-based so that it is kernel-reducible. -/
def parseDurSegs : Nat → List Char → Option Nat
  | _, [] => some 0
  | 0, _ => none
  | fuel + 1, cs =>
    let ip := takeDigits cs
    let fp := match ip.2 with
      | '.' :: rest => takeDigits rest
      | _ => ([], ip.2)
    if ip.1 = [] ∧ fp.1 = [] then none
    else
      let u := takeUnit fp.2
      match durUnitNs u.1 with
      | none => none
      | some unit =>
        let v := digitsToNat ip.1 * unit + digitsToNat fp.1 * unit / 10 ^ fp.1.length
        match parseDurSegs fuel u.2 with
        | none => none
        | some rest => some (v + rest)

/-- Model of Go time.ParseDuration: optional sign, the special case "0",
then one or more number-unit segments; the result is in nanoseconds and
none models a non-nil error. -/
def goParseDuration (s : String) : Option Int :=
  let cs := s.toList
  let r := match cs with
    | '-' :: t => (true, t)
    | '+' :: t => (false, t)
    | t => (false, t)
  if r.2 = ['0'] then some 0
  else if r.2 = [] then none
  else
    match parseDurSegs (r.2.length + 1) r.2 with
    | none => none
    | some tot =>
      if 2 ^ 63 - 1 < (tot : Int) then none
      else some (if r.1 then -(tot : Int) else (tot : Int))

/-- Model of the Config structure of the repository; time.Duration is held as
nanoseconds. -/
structure Config where
  serverPort : Int
  serverHost : String
  grpcEnabled : Bool
  grpcPort : Int
  logLevel : String
  maxUploadSize : Int
  timeout : Int
  metricsEnabled : Bool
  authEnabled : Bool
  authIssuer : String
  authAudience : String
  authJWKSURL : String
  deriving Repr, DecidableEq

/-- Model of the getEnv helper: the environment is a total map from keys
to strings, with the empty string meaning unset, exactly as os.Getenv
reports it. -/
def getEnv (env : String → String) (key defaultValue : String) : String :=
  if env key ≠ "" then env key else defaultValue

/-- Model of the getEnvAsInt helper from internal/config/config.go. -/
def getEnvAsInt (env : String → String) (key : String) (defaultValue : Int) : Int :=
  let valueStr := env key
  if valueStr = "" then defaultValue
  else
    match goParseInt valueStr with
    | none => defaultValue
    | some v => v

/-- Model of the getEnvAsInt64 helper; on a 64-bit platform its parser has
the same semantics as the one of getEnvAsInt. -/
def getEnvAsInt64 (env : String → String) (key : String) (defaultValue : Int) : Int :=
  let valueStr := env key
  if valueStr = "" then defaultValue
  else
    match goParseInt valueStr with
    | none => defaultValue
    | some v => v

/-- Model of the getEnvAsBool helper. -/
def getEnvAsBool (env : String → String) (key : String) (defaultValue : Bool) : Bool :=
  let valueStr := env key
  if valueStr = "" then defaultValue
  else
    match goParseBool valueStr with
    | none => defaultValue
    | some v => v

/-- Model of the getEnvAsDuration helper. -/
def getEnvAsDuration (env : String → String) (key : String) (defaultValue : Int) : Int :=
  let valueStr := env key
  if valueStr = "" then defaultValue
  else
    match goParseDuration valueStr with
    | none => defaultValue
    | some v => v

/-- The Config value LoadConfig builds from the environment, with the
defaults of the source. -/
def configFromEnv (env : String → String) : Config :=
  { serverPort := getEnvAsInt env "SERVER_PORT" 8080
    serverHost := getEnv env "SERVER_HOST" "0.0.0.0"
    grpcEnabled := getEnvAsBool env "GRPC_ENABLED" false
    grpcPort := getEnvAsInt env "GRPC_PORT" 9090
    logLevel := getEnv env "LOG_LEVEL" "info"
    maxUploadSize := getEnvAsInt64 env "MAX_UPLOAD_SIZE" (100 * 1024 * 1024)
    timeout := getEnvAsDuration env "TIMEOUT" (5 * 60 * 1000000000)
    metricsEnabled := getEnvAsBool env "METRICS_ENABLED" true
    authEnabled := getEnvAsBool env "AUTH_ENABLED" false
    authIssuer := getEnv env "AUTH_ISSUER" ""
    authAudience := getEnv env "AUTH_AUDIENCE" ""
    authJWKSURL := getEnv env "AUTH_JWKS_URL" "" }

/-- Model of Config.Validate, with the checks of the source in source order and
its exact error messages. -/
def Config.Validate (c : Config) : Option String :=
  if c.serverPort < 1 ∨ 65535 < c.serverPort then
    some ("invalid server port: " ++ toString c.serverPort ++ " (must be 1-65535)")
  else if c.grpcEnabled ∧ (c.grpcPort < 1 ∨ 65535 < c.grpcPort) then
    some ("invalid gRPC port: " ++ toString c.grpcPort ++ " (must be 1-65535)")
  else if c.maxUploadSize < 1024 then
    some ("max upload size too small: " ++ toString c.maxUploadSize ++ " (must be at least 1024 bytes)")
  else if ¬(c.logLevel = "debug" ∨ c.logLevel = "info" ∨ c.logLevel = "warn" ∨ c.logLevel = "error") then
    some ("invalid log level: " ++ c.logLevel ++ " (must be debug, info, warn, or error)")
  else if c.authEnabled ∧ ¬c.grpcEnabled then
    some "authentication requires gRPC to be enabled"
  else if c.authEnabled ∧ c.authIssuer = "" then
    some "invalid auth issuer: required when AUTH_ENABLED=true"
  else if c.authEnabled ∧ c.authAudience = "" then
    some "invalid auth audience: required when AUTH_ENABLED=true"
  else none

/-- Model of LoadConfig: build the Config from the environment with
defaults, then validate it. -/
def LoadConfig (env : String → String) : Except String Config :=
  let config := configFromEnv env
  match config.Validate with
  | some e => .error e
  | none => .ok config

/-- Environment holding malformed values for each non-string key, used as
a concrete witness input. -/
def envMalformed : String → String := fun key =>
  if key = "SERVER_PORT" then "eight"
  else if key = "MAX_UPLOAD_SIZE" then "12MB"
  else if key = "GRPC_ENABLED" then "enabled"
  else if key = "TIMEOUT" then "five minutes"
  else ""

/-- Environment whose only set key is an invalid log level, used as a
concrete witness input for the validation-failure path. -/
def envBadLog : String → String := fun key =>
  if key = "LOG_LEVEL" then "verbose" else ""

end Cfg

namespace EA

lemma qmin_le_left (a b : ℚ) : qmin a b ≤ a := by
  unfold qmin
  split
  · exact le_refl a
  · exact le_of_not_le (by assumption)

lemma qmin_choice (a b : ℚ) : qmin a b = a ∨ qmin a b = b := by
  unfold qmin
  split
  · exact Or.inl rfl
  · exact Or.inr rfl

lemma le_qmax_left (a b : ℚ) : a ≤ qmax a b := by
  unfold qmax
  split
  · assumption
  · exact le_refl a

lemma clampE_nonneg (b : Nat) (x : ℚ) : 0 ≤ clampE b x := by
  unfold clampE qmin
  split
  · exact_mod_cast Nat.zero_le b
  · exact le_qmax_left 0 x

lemma clampE_le (b : Nat) (x : ℚ) : clampE b x ≤ (b : ℚ) := qmin_le_left _ _

lemma foldl_qmin_mem (xs : List ℚ) : ∀ x : ℚ, xs.foldl qmin x ∈ x :: xs := by
  induction xs with
  | nil => intro x; simp
  | cons a as ih =>
    intro x
    simp only [List.foldl_cons]
    have h2 := ih (qmin x a)
    rcases List.mem_cons.mp h2 with h3 | h3
    · rcases qmin_choice x a with h4 | h4
      · rw [h3, h4]; exact List.mem_cons_self _ _
      · rw [h3, h4]; exact List.mem_cons_of_mem _ (List.mem_cons_self _ _)
    · exact List.mem_cons_of_mem _ (List.mem_cons_of_mem _ h3)

lemma minEstimate_mem {rs : List TestResult} {m : ℚ} (h : minEstimate rs = some m) :
    ∃ t ∈ rs, t.estimate = some m := by
  unfold minEstimate at h
  cases hf : rs.filterMap (fun t => t.estimate) with
  | nil => rw [hf] at h; simp at h
  | cons x xs =>
    rw [hf] at h
    simp only [Option.some.injEq] at h
    have hm : m ∈ x :: xs := h ▸ foldl_qmin_mem xs x
    rw [← hf] at hm
    exact List.mem_filterMap.mp hm

lemma minEstimate_isSome_of_head {t : TestResult} {rest : List TestResult} {q : ℚ}
    (h : t.estimate = some q) : (minEstimate (t :: rest)).isSome = true := by
  simp [minEstimate, List.filterMap_cons, h]

lemma mkResult_bounds {nm : String} {app : Prop} [Decidable app] {b : Nat} {x q : ℚ}
    (h : (mkResult nm app (clampE b x)).estimate = some q) : 0 ≤ q ∧ q ≤ (b : ℚ) := by
  unfold mkResult at h
  simp only at h
  split at h
  · rw [Option.some.injEq] at h
    subst h
    exact ⟨clampE_nonneg _ _, clampE_le _ _⟩
  · exact Option.noConfusion h

lemma iidBattery_bounds {s : List Nat} {b : Nat} {t : TestResult} (ht : t ∈ iidBattery s b)
    {q : ℚ} (hq : t.estimate = some q) : 0 ≤ q ∧ q ≤ (b : ℚ) := by
  simp only [iidBattery, List.mem_cons, List.not_mem_nil, or_false] at ht
  rcases ht with h | h <;> subst h <;> exact mkResult_bounds hq

lemma nonIIDBattery_bounds {s : List Nat} {b : Nat} {t : TestResult} (ht : t ∈ nonIIDBattery s b)
    {q : ℚ} (hq : t.estimate = some q) : 0 ≤ q ∧ q ≤ (b : ℚ) := by
  simp only [nonIIDBattery, List.mem_cons, List.not_mem_nil, or_false] at ht
  rcases ht with h | h | h | h | h | h | h | h | h | h <;> subst h <;> exact mkResult_bounds hq

lemma validateInput_none {d : List Nat} {bits : Int} (h : validateInput d bits = none) :
    d ≠ [] ∧ 1 ≤ bits ∧ bits ≤ 8 ∧ 2 ≤ d.length := by
  unfold validateInput at h
  split at h
  · exact Option.noConfusion h
  · split at h
    · exact Option.noConfusion h
    · split at h
      · exact Option.noConfusion h
      · refine ⟨?_, by omega, by omega, by omega⟩
        intro he
        subst he
        simp_all

lemma validateInput_none_of {d : List Nat} {bits : Int} (h1 : d ≠ []) (h2 : 1 ≤ bits)
    (h3 : bits ≤ 8) (h4 : 2 ≤ d.length) : validateInput d bits = none := by
  have he : d.isEmpty = false := by
    cases d with
    | nil => exact absurd rfl h1
    | cons a l => rfl
  unfold validateInput
  rw [if_neg (by simp [he]), if_neg (by omega), if_neg (by omega)]

lemma toNat_cast_rat {bits : Int} (h : 0 ≤ bits) : ((bits.toNat : ℚ)) = (bits : ℚ) := by
  rw [← Int.cast_natCast, Int.toNat_of_nonneg h]

lemma isOk_eq_true_iff {e : Except EAError AssessmentResult} :
    isOk e = true ↔ ∃ r, e = .ok r := by
  cases e <;> simp [isOk]

lemma assessWith_ok_inv {tt : TestType} {bat : List Nat → Nat → Except String (List TestResult)}
    {v : Nat} {d : List Nat} {bits : Int} {r : AssessmentResult}
    (h : assessWith tt bat v d bits = .ok r) :
    validateInput d bits = none ∧
      ∃ rs, bat d bits.toNat = .ok rs ∧ minEstimate rs = some r.minEntropy ∧ r.breakdown = rs := by
  unfold assessWith at h
  cases hv : validateInput d bits with
  | some e => rw [hv] at h; exact Except.noConfusion h
  | none =>
    rw [hv] at h
    simp only [] at h
    cases hb : bat d bits.toNat with
    | error msg => rw [hb] at h; exact Except.noConfusion h
    | ok rs =>
      rw [hb] at h
      simp only [] at h
      cases hm : minEstimate rs with
      | none => rw [hm] at h; exact Except.noConfusion h
      | some m =>
        rw [hm] at h
        simp only [] at h
        rw [Except.ok.injEq] at h
        subst h
        exact ⟨rfl, rs, rfl, hm, rfl⟩

lemma assessWith_breakdown (tt : TestType) (bat : List Nat → Nat → Except String (List TestResult))
    (v : Nat) (d : List Nat) (bits : Int) :
    breakdownMin (assessWith tt bat v d bits) = resultMinEntropy (assessWith tt bat v d bits) := by
  unfold assessWith
  cases validateInput d bits with
  | some e => rfl
  | none =>
    cases bat d bits.toNat with
    | error msg => rfl
    | ok rs =>
      cases hm : minEstimate rs with
      | none => simp [breakdownMin, resultMinEntropy, hm]
      | some m => simp [breakdownMin, resultMinEntropy, hm]

lemma assessWith_pure_bounds (tt : TestType) (f : List Nat → Nat → List TestResult)
    (hf : ∀ (s : List Nat) (b : Nat) (t : TestResult), t ∈ f s b →
      ∀ q : ℚ, t.estimate = some q → 0 ≤ q ∧ q ≤ (b : ℚ))
    (v : Nat) (d : List Nat) (bits : Int)
    (hok : isOk (assessWith tt (pureBattery f) v d bits) = true) :
    0 ≤ minEntropyOut (assessWith tt (pureBattery f) v d bits) ∧
      minEntropyOut (assessWith tt (pureBattery f) v d bits) ≤ (bits : ℚ) := by
  obtain ⟨r, hr⟩ := isOk_eq_true_iff.mp hok
  obtain ⟨hv, rs, hb, hm, hbd⟩ := assessWith_ok_inv hr
  have hrs : rs = f d bits.toNat := by
    unfold pureBattery at hb
    exact (Except.ok.injEq _ _ ▸ hb).symm
  obtain ⟨t, htm, hte⟩ := minEstimate_mem hm
  rw [hrs] at htm
  have hbnd := hf d bits.toNat t htm r.minEntropy hte
  have hbits := validateInput_none hv
  have hc : ((bits.toNat : ℚ)) = (bits : ℚ) := toNat_cast_rat (by omega)
  rw [hr]
  unfold minEntropyOut resultMinEntropy
  simp only [Option.getD_some]
  exact ⟨hbnd.1, hc ▸ hbnd.2⟩

lemma assessWith_verbose_min (tt : TestType)
    (bat : List Nat → Nat → Except String (List TestResult)) (v1 v2 : Nat)
    (d : List Nat) (bits : Int) :
    resultMinEntropy (assessWith tt bat v1 d bits) =
      resultMinEntropy (assessWith tt bat v2 d bits) := by
  unfold assessWith
  cases validateInput d bits with
  | some e => rfl
  | none =>
    simp only []
    cases bat d bits.toNat with
    | error msg => rfl
    | ok rs =>
      simp only []
      cases minEstimate rs with
      | none => rfl
      | some m => rfl

lemma isOk_assessWith_pure {tt : TestType} {f : List Nat → Nat → List TestResult} {v : Nat}
    {d : List Nat} {bits : Int} (hv : validateInput d bits = none)
    (hm : (minEstimate (f d bits.toNat)).isSome = true) :
    isOk (assessWith tt (pureBattery f) v d bits) = true := by
  unfold assessWith pureBattery
  rw [hv]
  cases hm2 : minEstimate (f d bits.toNat) with
  | none => rw [hm2] at hm; simp at hm
  | some m => simp [hm2, isOk]

lemma hasNA_assessWith_pure {tt : TestType} {f : List Nat → Nat → List TestResult} {v : Nat}
    {d : List Nat} {bits : Int} (hv : validateInput d bits = none)
    (hm : (minEstimate (f d bits.toNat)).isSome = true)
    (hna : (f d bits.toNat).any (fun t => t.estimate.isNone) = true) :
    hasNotApplicable (assessWith tt (pureBattery f) v d bits) = true := by
  unfold assessWith pureBattery
  rw [hv]
  cases hm2 : minEstimate (f d bits.toNat) with
  | none => rw [hm2] at hm; simp at hm
  | some m => simp [hm2, hasNotApplicable, hna]

lemma mcvResult_estimate {s : List Nat} {b : Nat} (h : 1 ≤ s.length) :
    (mcvResult s b).estimate = some (clampE b (mcvRaw s)) := by
  simp [mcvResult, mkResult, h]

lemma compressionResult_na {s : List Nat} {b : Nat} (h : s.length < 1000) :
    (compressionResult s b).estimate = none := by
  simp only [compressionResult, mkResult]
  rw [if_neg (by omega)]

lemma validateInput_single (x : Nat) (bits : Int) :
    ∃ m, validateInput [x] bits = some (.invalidInput m) := by
  unfold validateInput
  by_cases hb : bits < 1 ∨ 8 < bits
  · rw [if_neg (by simp), if_pos hb]
    exact ⟨_, rfl⟩
  · rw [if_neg (by simp), if_neg hb, if_pos (by simp)]
    exact ⟨_, rfl⟩

lemma isInvalidInput_assessWith {tt : TestType}
    {bat : List Nat → Nat → Except String (List TestResult)} {v : Nat} {d : List Nat}
    {bits : Int} {m : String} (hv : validateInput d bits = some (.invalidInput m)) :
    isInvalidInput (assessWith tt bat v d bits) = true := by
  unfold assessWith
  rw [hv]
  rfl

/-- C1: for every input, a successful AssessIID or AssessNonIID call
returns a min-entropy equal to the minimum over the estimates of exactly
the applicable sub-tests of its breakdown; not-applicable sub-tests are
excluded from that minimum (on a failed call both sides are none). -/
theorem assess_min_entropy_is_min_of_applicable (v : Nat) (d : List Nat) (bits : Int) :
    breakdownMin (AssessIID v d bits) = resultMinEntropy (AssessIID v d bits) ∧
    breakdownMin (AssessNonIID v d bits) = resultMinEntropy (AssessNonIID v d bits) :=
  ⟨assessWith_breakdown _ _ _ _ _, assessWith_breakdown _ _ _ _ _⟩

/-- C2: every successful AssessIID or AssessNonIID call returns a
min-entropy between 0 and bits-per-symbol. -/
theorem assess_min_entropy_in_range (v : Nat) (d : List Nat) (bits : Int) :
    (isOk (AssessIID v d bits) = true →
      0 ≤ minEntropyOut (AssessIID v d bits) ∧ minEntropyOut (AssessIID v d bits) ≤ (bits : ℚ)) ∧
    (isOk (AssessNonIID v d bits) = true →
      0 ≤ minEntropyOut (AssessNonIID v d bits) ∧
        minEntropyOut (AssessNonIID v d bits) ≤ (bits : ℚ)) :=
  ⟨fun h => assessWith_pure_bounds _ _ (fun _ _ _ ht _ hq => iidBattery_bounds ht hq) v d bits h,
   fun h => assessWith_pure_bounds _ _ (fun _ _ _ ht _ hq => nonIIDBattery_bounds ht hq) v d bits h⟩

/-- Witness for C2 at the concrete input [1, 2] with 8 bits per symbol. -/
theorem assess_min_entropy_in_range_witness :
    isOk (AssessIID 0 [1, 2] 8) = true ∧
      (0 ≤ minEntropyOut (AssessIID 0 [1, 2] 8) ∧
        minEntropyOut (AssessIID 0 [1, 2] 8) ≤ ((8 : Int) : ℚ)) :=
  ⟨by decide, (assess_min_entropy_in_range 0 [1, 2] 8).1 (by decide)⟩

/-- C3: for every bits-per-symbol value, AssessIID and AssessNonIID on an
empty buffer fail with InvalidInput saying the data cannot be empty, so no
AssessmentResult is returned. -/
theorem assess_empty_data_invalid (v : Nat) (bits : Int) :
    AssessIID v [] bits = .error (.invalidInput "data cannot be empty") ∧
    AssessNonIID v [] bits = .error (.invalidInput "data cannot be empty") :=
  ⟨rfl, rfl⟩

/-- C4: for every non-empty buffer and bits-per-symbol outside 1..8,
AssessIID and AssessNonIID fail with an InvalidInput whose message names
bits_per_symbol, so no AssessmentResult is returned. -/
theorem assess_bits_out_of_range_invalid (v : Nat) (d : List Nat) (bits : Int)
    (h1 : d ≠ []) (h2 : bits < 1 ∨ 8 < bits) :
    AssessIID v d bits = .error (.invalidInput "bits_per_symbol must be between 1 and 8") ∧
    AssessNonIID v d bits = .error (.invalidInput "bits_per_symbol must be between 1 and 8") := by
  have he : d.isEmpty = false := by
    cases d with
    | nil => exact absurd rfl h1
    | cons a l => rfl
  have hv : validateInput d bits =
      some (.invalidInput "bits_per_symbol must be between 1 and 8") := by
    unfold validateInput
    rw [if_neg (by simp [he]), if_pos h2]
  refine ⟨?_, ?_⟩
  · unfold AssessIID assessWith
    rw [hv]
  · unfold AssessNonIID assessWith
    rw [hv]

/-- Witness for C4 at the bit widths 9, 0 and -1 from the spec. -/
theorem assess_bits_out_of_range_invalid_witness :
    AssessIID 0 [1, 2, 3] 9 = .error (.invalidInput "bits_per_symbol must be between 1 and 8") ∧
    AssessNonIID 0 [1, 2, 3] 0 = .error (.invalidInput "bits_per_symbol must be between 1 and 8") ∧
    AssessIID 0 [1, 2, 3] (-1) = .error (.invalidInput "bits_per_symbol must be between 1 and 8") :=
  ⟨(assess_bits_out_of_range_invalid 0 [1, 2, 3] 9 (by decide) (by decide)).1,
   (assess_bits_out_of_range_invalid 0 [1, 2, 3] 0 (by decide) (by decide)).2,
   (assess_bits_out_of_range_invalid 0 [1, 2, 3] (-1) (by decide) (by decide)).1⟩

/-- C5: when the underlying battery reports an internal statistical
failure on a valid input, the orchestrator (hence AssessIID and
AssessNonIID, which instantiate it) fails with AssessmentFailed carrying
the diagnostic message intact; no result is returned and no default
estimate is substituted. -/
theorem assess_failure_propagated (tt : TestType)
    (battery : List Nat → Nat → Except String (List TestResult)) (v : Nat) (d : List Nat)
    (bits : Int) (msg : String) (hv : validateInput d bits = none)
    (hb : battery d bits.toNat = .error msg) :
    assessWith tt battery v d bits =
      .error (.assessmentFailed (tt.name ++ " assessment failed: " ++ msg)) := by
  unfold assessWith
  rw [hv]
  simp only []
  rw [hb]

/-- Witness for C5 with a battery failing on the collision estimator. -/
theorem assess_failure_propagated_witness :
    assessWith .iid (fun _ _ => .error "collision estimate did not converge") 0 [1, 2] 8 =
      .error (.assessmentFailed ("IID" ++ " assessment failed: " ++ "collision estimate did not converge")) :=
  assess_failure_propagated .iid _ 0 [1, 2] 8 _ (by decide) rfl

/-- C6: invoking the service twice with the same call from the same
starting state yields identical outputs; in particular two AssessIID or
AssessNonIID calls on the same data and bits-per-symbol return the same
min-entropy. -/
theorem assess_repeated_call_deterministic (s : Service) (c : Call) :
    (step (step s c).1 c).2 = (step s c).2 := by
  cases c <;> rfl

/-- C7: when validation rejects the input, the orchestrator returns
exactly the validation error regardless of the battery, so no statistical
work is observable and no fragment of an output record exists. -/
theorem assess_validation_before_statistics (tt : TestType)
    (battery : List Nat → Nat → Except String (List TestResult)) (v : Nat) (d : List Nat)
    (bits : Int) (e : EAError) (hv : validateInput d bits = some e) :
    assessWith tt battery v d bits = .error e := by
  unfold assessWith
  rw [hv]

/-- Witness for C7 on the empty buffer. -/
theorem assess_validation_before_statistics_witness :
    assessWith .nonIID (fun _ _ => .ok []) 0 [] 8 =
      .error (.invalidInput "data cannot be empty") :=
  assess_validation_before_statistics .nonIID _ 0 [] 8 _ (by decide)

/-- C8: a 1-symbol sample fails with InvalidInput on both paths, while for
any valid bits-per-symbol a 2-symbol sample succeeds, with the sub-tests
requiring a longer window recorded as not applicable in the breakdown. -/
theorem assess_degenerate_lengths (v x y : Nat) (bits : Int) :
    (isInvalidInput (AssessIID v [x] bits) = true ∧
      isInvalidInput (AssessNonIID v [x] bits) = true) ∧
    (1 ≤ bits → bits ≤ 8 →
      isOk (AssessIID v [x, y] bits) = true ∧
      hasNotApplicable (AssessIID v [x, y] bits) = true ∧
      isOk (AssessNonIID v [x, y] bits) = true ∧
      hasNotApplicable (AssessNonIID v [x, y] bits) = true) := by
  constructor
  · obtain ⟨m, hm⟩ := validateInput_single x bits
    exact ⟨isInvalidInput_assessWith hm, isInvalidInput_assessWith hm⟩
  · intro h1 h2
    have hv : validateInput [x, y] bits = none :=
      validateInput_none_of (by simp) h1 h2 (by simp)
    have hmcv : (mcvResult [x, y] bits.toNat).estimate =
        some (clampE bits.toNat (mcvRaw [x, y])) := mcvResult_estimate (by simp)
    have hsome_iid : (minEstimate (iidBattery [x, y] bits.toNat)).isSome = true := by
      simp only [iidBattery]
      exact minEstimate_isSome_of_head hmcv
    have hsome_non : (minEstimate (nonIIDBattery [x, y] bits.toNat)).isSome = true := by
      simp only [nonIIDBattery]
      exact minEstimate_isSome_of_head hmcv
    have hcomp : (compressionResult [x, y] bits.toNat).estimate = none :=
      compressionResult_na (by simp)
    have hna_iid : (iidBattery [x, y] bits.toNat).any (fun t => t.estimate.isNone) = true := by
      simp [iidBattery, hcomp]
    have hna_non : (nonIIDBattery [x, y] bits.toNat).any (fun t => t.estimate.isNone) = true := by
      simp [nonIIDBattery, hcomp]
    exact ⟨isOk_assessWith_pure hv hsome_iid, hasNA_assessWith_pure hv hsome_iid hna_iid,
      isOk_assessWith_pure hv hsome_non, hasNA_assessWith_pure hv hsome_non hna_non⟩

/-- Witness for C8 at concrete samples [7] and [1, 2] with 8 bits. -/
theorem assess_degenerate_lengths_witness :
    (isInvalidInput (AssessIID 0 [7] 8) = true ∧
      isInvalidInput (AssessNonIID 0 [7] 8) = true) ∧
    ((1 : Int) ≤ 8 ∧ (8 : Int) ≤ 8 ∧
      isOk (AssessIID 0 [1, 2] 8) = true ∧
      hasNotApplicable (AssessIID 0 [1, 2] 8) = true ∧
      isOk (AssessNonIID 0 [1, 2] 8) = true ∧
      hasNotApplicable (AssessNonIID 0 [1, 2] 8) = true) :=
  ⟨(assess_degenerate_lengths 0 7 0 8).1,
   by decide, by decide, (assess_degenerate_lengths 0 1 2 8).2 (by decide) (by decide)⟩

/-- C9: assessment calls leave the service state unchanged, the output of
any call depends only on the current verbosity and the arguments (not on
earlier calls), and the min-entropy itself is independent of verbosity. -/
theorem service_stateless_verbosity_per_call :
    (∀ (s : Service) (d : List Nat) (b : Int),
        (step s (.assessIID d b)).1 = s ∧ (step s (.assessNonIID d b)).1 = s) ∧
    (∀ (s1 s2 : Service) (c : Call), s1.verbose = s2.verbose →
        (step s1 c).2 = (step s2 c).2) ∧
    (∀ (v1 v2 : Nat) (d : List Nat) (b : Int),
        resultMinEntropy (AssessIID v1 d b) = resultMinEntropy (AssessIID v2 d b) ∧
        resultMinEntropy (AssessNonIID v1 d b) = resultMinEntropy (AssessNonIID v2 d b)) := by
  refine ⟨fun s d b => ⟨rfl, rfl⟩, ?_, ?_⟩
  · intro s1 s2 c h
    cases c with
    | setVerbose w => rfl
    | assessIID d b => simp [step, h]
    | assessNonIID d b => simp [step, h]
  · intro v1 v2 d b
    exact ⟨assessWith_verbose_min _ _ _ _ _ _, assessWith_verbose_min _ _ _ _ _ _⟩

/-- Witness for C9: state preservation, history independence across a
SetVerbose call, and verbosity independence of the min-entropy, all at
concrete inputs. -/
theorem service_stateless_verbosity_per_call_witness :
    ((step ⟨3⟩ (Call.assessIID [1, 2] 8)).1 = ⟨3⟩) ∧
    ((step ⟨5⟩ (Call.assessIID [1, 2] 8)).2 =
      (step (step ⟨0⟩ (Call.setVerbose 5)).1 (Call.assessIID [1, 2] 8)).2) ∧
    (resultMinEntropy (AssessIID 0 [1, 2] 8) = resultMinEntropy (AssessIID 7 [1, 2] 8)) :=
  ⟨(service_stateless_verbosity_per_call.1 ⟨3⟩ [1, 2] 8).1,
   service_stateless_verbosity_per_call.2.1 ⟨5⟩ (step ⟨0⟩ (Call.setVerbose 5)).1
     (Call.assessIID [1, 2] 8) rfl,
   (service_stateless_verbosity_per_call.2.2 0 7 [1, 2] 8).1⟩

end EA

namespace Cfg

/-- C10: for each typed helper, a set-but-unparsable environment value
silently yields the supplied default, and LoadConfig can only fail through
Validate rejecting the constructed Config. -/
theorem config_parse_failures_use_defaults :
    (∀ (env : String → String) (key : String) (d : Int), env key ≠ "" →
        goParseInt (env key) = none → getEnvAsInt env key d = d) ∧
    (∀ (env : String → String) (key : String) (d : Int), env key ≠ "" →
        goParseInt (env key) = none → getEnvAsInt64 env key d = d) ∧
    (∀ (env : String → String) (key : String) (d : Bool), env key ≠ "" →
        goParseBool (env key) = none → getEnvAsBool env key d = d) ∧
    (∀ (env : String → String) (key : String) (d : Int), env key ≠ "" →
        goParseDuration (env key) = none → getEnvAsDuration env key d = d) ∧
    (∀ (env : String → String) (e : String), LoadConfig env = .error e →
        (configFromEnv env).Validate = some e) := by
  refine ⟨?_, ?_, ?_, ?_, ?_⟩
  · intro env key d h1 h2
    simp only [getEnvAsInt]
    rw [if_neg h1, h2]
  · intro env key d h1 h2
    simp only [getEnvAsInt64]
    rw [if_neg h1, h2]
  · intro env key d h1 h2
    simp only [getEnvAsBool]
    rw [if_neg h1, h2]
  · intro env key d h1 h2
    simp only [getEnvAsDuration]
    rw [if_neg h1, h2]
  · intro env e h
    simp only [LoadConfig] at h
    cases hv : (configFromEnv env).Validate with
    | some msg =>
      rw [hv] at h
      simp only [] at h
      rw [Except.error.injEq] at h
      rw [h]
    | none =>
      rw [hv] at h
      exact Except.noConfusion h

/-- Witness for C10 over a concrete malformed environment and a concrete
environment that fails validation. -/
theorem config_parse_failures_use_defaults_witness :
    (envMalformed "SERVER_PORT" ≠ "" ∧ getEnvAsInt envMalformed "SERVER_PORT" 8080 = 8080) ∧
    getEnvAsInt64 envMalformed "MAX_UPLOAD_SIZE" 104857600 = 104857600 ∧
    getEnvAsBool envMalformed "GRPC_ENABLED" false = false ∧
    getEnvAsDuration envMalformed "TIMEOUT" 300000000000 = 300000000000 ∧
    (configFromEnv envBadLog).Validate =
      some "invalid log level: verbose (must be debug, info, warn, or error)" :=
  ⟨⟨by decide, config_parse_failures_use_defaults.1 envMalformed "SERVER_PORT" 8080
      (by decide) (by decide)⟩,
   config_parse_failures_use_defaults.2.1 envMalformed "MAX_UPLOAD_SIZE" 104857600
     (by decide) (by decide),
   config_parse_failures_use_defaults.2.2.1 envMalformed "GRPC_ENABLED" false
     (by decide) (by decide),
   config_parse_failures_use_defaults.2.2.2.1 envMalformed "TIMEOUT" 300000000000
     (by decide) (by decide),
   config_parse_failures_use_defaults.2.2.2.2 envBadLog
     "invalid log level: verbose (must be debug, info, warn, or error)" rfl⟩

end Cfg
